import Mathlib

/-!
Shallow embedding of the SoundCloud DJ collection tracker core:
`soundcloud_flow.py` (the reconciliation pass) and `djapp.py` (the
edit-merge operator and the editor-opening flow).

Modelling conventions:
* Python dicts with optional keys become structures with `Option` fields;
  a `dict[key]` access on a possibly-missing key becomes an `Except`
  (Python raises `KeyError`).
* The catalog (a Python dict keyed by track id, insertion ordered) becomes
  an id-keyed `List TrackRecord`; insertion appends at the end and update
  rewrites the unique entry in place, exactly as dict semantics do.
* The `old_tracks` dict becomes an association list built by prepending,
  looked up front-first, so a later row shadows an earlier one with the
  same id (Python dict assignment semantics).
* Prices are modelled by `Rat`: the program only stores prices, tests them
  for null-ness and copies them verbatim, so the exact numeric carrier is
  immaterial to every property stated here.
* Python string operations are modelled character-exactly: `str.strip()`
  drops the six ASCII whitespace characters from both ends, and the `in`
  operator on strings is contiguous-substring membership.
-/

/-- The characters removed by Python's default `str.strip()`. -/
def isSpaceChar (c : Char) : Bool :=
  c == ' ' || c == '\t' || c == '\n' || c == '\r' || c == '\x0b' || c == '\x0c'

def stripChars (l : List Char) : List Char :=
  ((l.dropWhile isSpaceChar).reverse.dropWhile isSpaceChar).reverse

/-- Python `str.strip()`. -/
def pyStrip (s : String) : String := ⟨stripChars s.data⟩

/-- Python's substring operator: `charsContain pat s` holds when `pat`
occurs contiguously inside `s`. -/
def charsContain (pat : List Char) : List Char → Bool
  | [] => pat.isEmpty
  | c :: rest => pat.isPrefixOf (c :: rest) || charsContain pat rest

/-- Python `pat in s` on strings. -/
def strContains (s pat : String) : Bool := charsContain pat.data s.data

/-- `has_non_default_purchase_url` (soundcloud_flow.py lines 43-44). -/
def has_non_default_purchase_url (purchase_url : Option String) : Bool :=
  match purchase_url with
  | none => false
  | some s => !(pyStrip s == "")

/-- `is_track_processed` (soundcloud_flow.py lines 47-48). -/
def is_track_processed (price : Option Rat) (purchase_url : Option String) : Bool :=
  price.isSome && has_non_default_purchase_url purchase_url

/-- One row of the persisted catalog (the schema written by `add_track`
and `data/tracks.parquet`).  `processed` is `Option Bool` because a stored
catalog may carry a null in that column (djapp.py handles that case). -/
structure TrackRecord where
  title : Option String
  id : String
  purchase_url : Option String
  purchased : Bool
  price : Option Rat
  processed : Option Bool
  soundcloud_url : Option String
  playlists : String
  artist : Option String
  genre : Option String
deriving DecidableEq, Repr

/-- A remote track object as consumed by `add_track`: a JSON dict whose
keys may be absent.  `username` models `track.get("user", {}).get("username")`. -/
structure RemoteTrack where
  kind : Option String
  id : Option String
  purchase_url : Option String
  title : Option String
  permalink_url : Option String
  username : Option String
  genre : Option String
deriving DecidableEq, Repr

/-- The owned-field triple stored per id in the `old_tracks` lookup
(soundcloud_flow.py lines 108-112). -/
structure Owned where
  price : Option Rat
  purchased : Bool
  purchase_url : Option String
deriving DecidableEq, Repr

abbrev Catalog := List TrackRecord
abbrev OwnedLookup := List (String × Owned)

def ownedOf (r : TrackRecord) : Owned := ⟨r.price, r.purchased, r.purchase_url⟩

/-- The `KeyError` a Python `track["kind"]` / `track["id"]` raises when the
key is missing. -/
inductive AddError where
  | missingKind
  | missingId
deriving DecidableEq, Repr

def lookupOwn (old_tracks : OwnedLookup) (track_id : String) : Option Owned :=
  match old_tracks.find? (fun p => p.1 == track_id) with
  | some p => some p.2
  | none => none

/-- Lines 101-107 of soundcloud_flow.py: a prior row is stored in
`old_tracks` unless all tracked fields are at their defaults. -/
def keepRow (row : TrackRecord) : Bool :=
  !(row.price.isNone && !row.purchased && !(has_non_default_purchase_url row.purchase_url))

def buildAux : List TrackRecord → OwnedLookup → OwnedLookup
  | [], acc => acc
  | row :: rest, acc =>
    if keepRow row then buildAux rest ((row.id, ownedOf row) :: acc)
    else buildAux rest acc

/-- The `old_tracks` dict built from the prior catalog
(soundcloud_flow.py lines 90-112). -/
def buildOldTracks (prior : List TrackRecord) : OwnedLookup := buildAux prior []

def catalogIds (c : Catalog) : List String := c.map (fun r => r.id)

/-- Python `track_id in all_tracks`. -/
def containsTrack (c : Catalog) (track_id : String) : Bool :=
  c.any (fun r => r.id == track_id)

/-- In-place mutation of the dict entry keyed `track_id`. -/
def updateTrack (c : Catalog) (track_id : String) (f : TrackRecord → TrackRecord) : Catalog :=
  c.map (fun r => if r.id == track_id then f r else r)

/-- Lines 68-74 of soundcloud_flow.py: append the collection-context label
unless the membership test — Python's substring `in` on the comma-joined
string — already succeeds. -/
def appendLabel (playlist_name : Option String) (r : TrackRecord) : TrackRecord :=
  match playlist_name with
  | none =>
    if strContains r.playlists "liked" then r
    else { r with playlists := r.playlists ++ ", liked" }
  | some name =>
    if strContains r.playlists name then r
    else { r with playlists := r.playlists ++ ", " ++ name }

/-- The owned fields a record created for `track_id` receives: the
`old_tracks` entry if present, else defaults with the remote record's own
purchase url (soundcloud_flow.py lines 55-66). -/
def ownOf (old_tracks : OwnedLookup) (track_id : String) (remote_url : Option String) : Owned :=
  match lookupOwn old_tracks track_id with
  | some o => o
  | none => ⟨none, false, remote_url⟩

/-- The record inserted at lines 75-86 of soundcloud_flow.py.  Note the
source seeds `playlists` to the literal `"liked"` whatever the context. -/
def mkNewRecord (track : RemoteTrack) (track_id : String) (old_tracks : OwnedLookup) : TrackRecord :=
  let owned := ownOf old_tracks track_id track.purchase_url
  { title := track.title
    id := track_id
    purchase_url := owned.purchase_url
    purchased := owned.purchased
    price := owned.price
    processed := some (is_track_processed owned.price owned.purchase_url)
    soundcloud_url := track.permalink_url
    playlists := "liked"
    artist := track.username
    genre := track.genre }

/-- `add_track` (soundcloud_flow.py lines 51-86). -/
def add_track (track : RemoteTrack) (all_tracks : Catalog) (old_tracks : OwnedLookup)
    (playlist_name : Option String) : Except AddError Catalog :=
  match track.kind with
  | none => .error .missingKind
  | some kind =>
    if kind != "track" then .ok all_tracks
    else
      match track.id with
      | none => .error .missingId
      | some track_id =>
        if containsTrack all_tracks track_id then
          .ok (updateTrack all_tracks track_id (appendLabel playlist_name))
        else
          .ok (all_tracks ++ [mkNewRecord track track_id old_tracks])

/-- One collection-context batch fed to the pass: the liked collection or
a named playlist (create_new_df lines 116-155). -/
inductive Batch where
  | liked (tracks : List RemoteTrack)
  | playlist (name : String) (tracks : List RemoteTrack)
deriving DecidableEq, Repr

/-- Pair each track of a batch with the `playlist_name` argument
`add_track` receives for it. -/
def labelTracks : Batch → List (Option String × RemoteTrack)
  | .liked ts => ts.map (fun t => (none, t))
  | .playlist n ts => ts.map (fun t => (some n, t))

def addPairs : List (Option String × RemoteTrack) → Catalog → OwnedLookup →
    Except AddError Catalog
  | [], cat, _ => .ok cat
  | (pl, t) :: ps, cat, old =>
    match add_track t cat old pl with
    | .error e => .error e
    | .ok cat' => addPairs ps cat' old

def runBatches : List Batch → Catalog → OwnedLookup → Except AddError Catalog
  | [], cat, _ => .ok cat
  | b :: bs, cat, old =>
    match addPairs (labelTracks b) cat old with
    | .error e => .error e
    | .ok cat' => runBatches bs cat' old

def flattenBatches : List Batch → List (Option String × RemoteTrack)
  | [] => []
  | b :: bs => labelTracks b ++ flattenBatches bs

/-- `create_new_df` (soundcloud_flow.py lines 89-160): build the owned-field
lookup from the prior catalog, then fold every batch's tracks through
`add_track` starting from an empty working catalog. -/
def create_new_df (prior : Catalog) (batches : List Batch) : Except AddError Catalog :=
  runBatches batches [] (buildOldTracks prior)

/-- The `(purchased, price, download_url)` tuple the edit modal dismisses
with (djapp.py `EditTrackModal.on_button_pressed`). -/
structure EditResult where
  purchased : Bool
  price : Option Rat
  purchase_url : Option String
deriving DecidableEq, Repr

/-- `DJApp._apply_track_edits` (djapp.py lines 563-626).  For the target
row the three owned fields are replaced and `processed` is recomputed as
`(price is not None) and (download_url is not None)`; for every other row
the owned fields pass through `otherwise(...)` unchanged while `processed`
goes through `fill_null(False)`.  The schema-coercion branches of the
source are identities on this typed record and are therefore omitted. -/
def editRow (track_id : String) (r : EditResult) (row : TrackRecord) : TrackRecord :=
  if row.id == track_id then
    { row with purchased := r.purchased
               price := r.price
               purchase_url := r.purchase_url
               processed := some (r.price.isSome && r.purchase_url.isSome) }
  else
    { row with processed := some (row.processed.getD false) }

def apply_track_edits (df : Catalog) (track_id : String)
    (result : Option EditResult) : Catalog :=
  match result with
  | none => df
  | some r => df.map (editRow track_id r)

/-- `DJApp._get_track_row` (djapp.py lines 401-405): filter by id, return
the first row if the filtered frame is nonempty. -/
def get_track_row (df : Catalog) (track_id : String) : Option TrackRecord :=
  match df.filter (fun r => r.id == track_id) with
  | [] => none
  | r :: _ => some r

/-- What the edit entry point does for a given id.  `notFound` is the
spec's error vocabulary; it is needed to state the spec's contract, and
the theorems settle whether the code ever produces it. -/
inductive EditAttempt where
  | editorOpened (purchased : Bool) (price : Option Rat)
      (download_url : Option String) (title : Option String)
  | ignored
  | notFound
deriving DecidableEq, Repr

/-- `DJApp._open_editor_for_track` (djapp.py lines 539-561): a silent
`return` when the row lookup fails, otherwise the modal opens seeded with
the row's owned fields. -/
def open_editor_for_track (df : Catalog) (track_id : String) : EditAttempt :=
  match get_track_row df track_id with
  | none => .ignored
  | some row => .editorOpened row.purchased row.price row.purchase_url row.title

/-- The complete edit path: `_apply_track_edits` runs only when
`_open_editor_for_track` found the row and pushed the modal. -/
def edit_track_flow (df : Catalog) (track_id : String)
    (modal_result : Option EditResult) : Catalog :=
  match get_track_row df track_id with
  | none => df
  | some _ => apply_track_edits df track_id modal_result

/-- All owned fields at their creation defaults (the complement of
`keepRow`, phrased on the owned triple). -/
def allDefaultOwned (o : Owned) : Bool :=
  o.price.isNone && !o.purchased && !(has_non_default_purchase_url o.purchase_url)

/-- The last row of `c` with id `track_id` that `keepRow` retains — the
value Python dict assignment leaves in `old_tracks[track_id]`. -/
def lastKept : List TrackRecord → String → Option Owned
  | [], _ => none
  | row :: rest, track_id =>
    match lastKept rest track_id with
    | some o => some o
    | none =>
      if row.id == track_id && keepRow row then some (ownedOf row) else none

/-- The first track-kind stream element carrying the given id — the
occurrence whose `add_track` call creates the record. -/
def firstTrackWithId : List (Option String × RemoteTrack) → String → Option RemoteTrack
  | [], _ => none
  | (_, t) :: ps, track_id =>
    if t.kind == some "track" && t.id == some track_id then some t
    else firstTrackWithId ps track_id

/-- Owned-field consistency of a catalog row with a lookup: the row's
owned triple is exactly what `ownOf` yields at the row's own id and
stored url. -/
def ownCons (L : OwnedLookup) (r : TrackRecord) : Prop :=
  ownedOf r = ownOf L r.id r.purchase_url

-- Shared sample data used by the concrete theorems below.

/-- A well-formed remote track. -/
def sampleRemote : RemoteTrack :=
  { kind := some "track", id := some "1", purchase_url := some "u"
    title := some "T", permalink_url := some "p"
    username := some "A", genre := some "g" }

/-- A remote track of track kind missing its identifier. -/
def sampleNoId : RemoteTrack :=
  { kind := some "track", id := none, purchase_url := none
    title := some "broken", permalink_url := none
    username := none, genre := none }

/-- A prior-catalog row for id "1" with all owned fields at defaults. -/
def samplePriorDefault : TrackRecord :=
  { title := some "T", id := "1", purchase_url := none, purchased := false
    price := none, processed := some false, soundcloud_url := some "p"
    playlists := "liked", artist := some "A", genre := some "g" }

/-- A prior-catalog row for id "1" with non-default owned fields
(purchased, priced 9.99, url "u"). -/
def samplePriorOwned : TrackRecord :=
  { title := some "T", id := "1", purchase_url := some "u", purchased := true
    price := some (999 / 100), processed := some true, soundcloud_url := some "p"
    playlists := "liked, OldList", artist := some "A", genre := some "g" }

/-- An edit tuple whose download url is whitespace-only. -/
def sampleEditWhitespace : EditResult := ⟨false, some 1, some "   "⟩

/-- A generic edit tuple. -/
def sampleEdit : EditResult := ⟨true, some 5, some "w"⟩

/-- A second catalog row, id "2", whose `processed` column is null. -/
def sampleRowNullProcessed : TrackRecord :=
  { title := some "B", id := "2", purchase_url := some "b-url", purchased := true
    price := some 3, processed := none, soundcloud_url := some "sb"
    playlists := "liked, Deep House", artist := some "BB", genre := some "gb" }

/-- The catalog `create_new_df [] [.liked [sampleRemote]]` produces. -/
def sampleFreshResult : TrackRecord :=
  { title := some "T", id := "1", purchase_url := some "u", purchased := false
    price := none, processed := some false, soundcloud_url := some "p"
    playlists := "liked", artist := some "A", genre := some "g" }

/-- The catalog `create_new_df [samplePriorOwned] [.liked [sampleRemote]]`
produces: remote-sourced fields from the fetch, owned fields preserved. -/
def sampleOwnedResult : TrackRecord :=
  { title := some "T", id := "1", purchase_url := some "u", purchased := true
    price := some (999 / 100), processed := some true, soundcloud_url := some "p"
    playlists := "liked", artist := some "A", genre := some "g" }

/-- Map a pass result to the per-record playlist strings. -/
def resultPlaylists (e : Except AddError Catalog) : Except AddError (List String) :=
  e.map (fun c => c.map (fun r => r.playlists))

/-- A remote record whose `kind` is not `"track"` (e.g. a playlist item). -/
def samplePlaylistKind : RemoteTrack :=
  { kind := some "playlist", id := some "9", purchase_url := none
    title := some "some playlist", permalink_url := none
    username := none, genre := none }

/-! ### Basic lemmas about the building blocks -/

theorem appendLabel_id (pl : Option String) (r : TrackRecord) :
    (appendLabel pl r).id = r.id := by
  cases pl <;> simp only [appendLabel] <;> split <;> rfl

theorem appendLabel_owned (pl : Option String) (r : TrackRecord) :
    ownedOf (appendLabel pl r) = ownedOf r := by
  cases pl <;> simp only [appendLabel] <;> split <;> rfl

theorem appendLabel_url (pl : Option String) (r : TrackRecord) :
    (appendLabel pl r).purchase_url = r.purchase_url := by
  cases pl <;> simp only [appendLabel] <;> split <;> rfl

theorem containsTrack_iff (c : Catalog) (X : String) :
    containsTrack c X = true ↔ X ∈ catalogIds c := by
  simp only [containsTrack, catalogIds, List.any_eq_true, List.mem_map, beq_iff_eq]

theorem not_mem_of_containsTrack_false {c : Catalog} {X : String}
    (hc : containsTrack c X = false) : X ∉ catalogIds c := by
  intro hm
  rw [← containsTrack_iff] at hm
  rw [hc] at hm
  cases hm

theorem catalogIds_updateTrack (c : Catalog) (X : String) (pl : Option String) :
    catalogIds (updateTrack c X (appendLabel pl)) = catalogIds c := by
  simp only [catalogIds, updateTrack, List.map_map]
  apply List.map_congr_left
  intro r _
  simp only [Function.comp]
  split
  · exact appendLabel_id pl r
  · rfl

theorem catalogIds_append (c : Catalog) (r : TrackRecord) :
    catalogIds (c ++ [r]) = catalogIds c ++ [r.id] := by
  simp [catalogIds]

theorem mkNewRecord_id (t : RemoteTrack) (X : String) (old : OwnedLookup) :
    (mkNewRecord t X old).id = X := rfl

theorem mkNewRecord_owned (t : RemoteTrack) (X : String) (old : OwnedLookup) :
    ownedOf (mkNewRecord t X old) = ownOf old X t.purchase_url := rfl

theorem keepRow_eq (r : TrackRecord) :
    keepRow r = !allDefaultOwned (ownedOf r) := rfl

theorem mkNewRecord_congr {t : RemoteTrack} {X : String} {L₁ L₂ : OwnedLookup}
    (h : ownOf L₁ X t.purchase_url = ownOf L₂ X t.purchase_url) :
    mkNewRecord t X L₁ = mkNewRecord t X L₂ := by
  unfold mkNewRecord
  rw [h]

theorem lookupOwn_cons (i : String) (o : Owned) (L : OwnedLookup) (X : String) :
    lookupOwn ((i, o) :: L) X = if i == X then some o else lookupOwn L X := by
  simp only [lookupOwn, List.find?_cons]
  cases h : (i == X) <;> simp [h]

/-! ### Case analysis of `add_track` -/

theorem add_track_kind_none {t : RemoteTrack} {cat : Catalog} {old : OwnedLookup}
    {pl : Option String} (h : t.kind = none) :
    add_track t cat old pl = .error .missingKind := by
  simp [add_track, h]

theorem add_track_skip {t : RemoteTrack} {cat : Catalog} {old : OwnedLookup}
    {pl : Option String} {k : String} (h : t.kind = some k) (hk : k ≠ "track") :
    add_track t cat old pl = .ok cat := by
  simp [add_track, h, hk]

theorem add_track_id_none {t : RemoteTrack} {cat : Catalog} {old : OwnedLookup}
    {pl : Option String} (h : t.kind = some "track") (hi : t.id = none) :
    add_track t cat old pl = .error .missingId := by
  simp [add_track, h, hi]

theorem add_track_update {t : RemoteTrack} {cat : Catalog} {old : OwnedLookup}
    {pl : Option String} {X : String} (h : t.kind = some "track") (hi : t.id = some X)
    (hc : containsTrack cat X = true) :
    add_track t cat old pl = .ok (updateTrack cat X (appendLabel pl)) := by
  simp [add_track, h, hi, hc]

theorem add_track_create {t : RemoteTrack} {cat : Catalog} {old : OwnedLookup}
    {pl : Option String} {X : String} (h : t.kind = some "track") (hi : t.id = some X)
    (hc : containsTrack cat X = false) :
    add_track t cat old pl = .ok (cat ++ [mkNewRecord t X old]) := by
  simp [add_track, h, hi, hc]

/-! ### Case analysis of `firstTrackWithId` -/

theorem first_cons_skip {pl : Option String} {t : RemoteTrack}
    {ps : List (Option String × RemoteTrack)} {X : String}
    (h : (t.kind == some "track" && t.id == some X) = false) :
    firstTrackWithId ((pl, t) :: ps) X = firstTrackWithId ps X := by
  simp [firstTrackWithId, h]

theorem first_cons_hit {pl : Option String} {t : RemoteTrack}
    {ps : List (Option String × RemoteTrack)} {X : String}
    (h : (t.kind == some "track" && t.id == some X) = true) :
    firstTrackWithId ((pl, t) :: ps) X = some t := by
  simp only [firstTrackWithId, h, if_true]

/-! ### Generic invariant preservation along a pass -/

theorem addPairs_ind (old : OwnedLookup) (P : Catalog → Prop)
    (hupd : ∀ cat X pl, P cat → P (updateTrack cat X (appendLabel pl)))
    (hnew : ∀ cat (t : RemoteTrack) X, t.kind = some "track" → t.id = some X →
      containsTrack cat X = false → P cat → P (cat ++ [mkNewRecord t X old])) :
    ∀ ps cat c, addPairs ps cat old = .ok c → P cat → P c := by
  intro ps
  induction ps with
  | nil =>
    intro cat c h hP
    simp only [addPairs] at h
    cases h
    exact hP
  | cons p ps ih =>
    obtain ⟨pl, t⟩ := p
    intro cat c h hP
    simp only [addPairs] at h
    rcases hkind : t.kind with _ | k
    · rw [add_track_kind_none hkind] at h
      cases h
    · by_cases hk : k = "track"
      · subst hk
        rcases hid : t.id with _ | X
        · rw [add_track_id_none hkind hid] at h
          cases h
        · cases hc : containsTrack cat X
          · rw [add_track_create hkind hid hc] at h
            exact ih _ _ h (hnew _ _ _ hkind hid hc hP)
          · rw [add_track_update hkind hid hc] at h
            exact ih _ _ h (hupd _ _ _ hP)
      · rw [add_track_skip hkind hk] at h
        exact ih _ _ h hP

/-- Ids present in the working catalog are never removed, and their owned
triple never changes after creation: the append path only rewrites
`playlists`. -/
theorem addPairs_pres (old : OwnedLookup) :
    ∀ ps cat c, addPairs ps cat old = .ok c →
    ∀ r ∈ cat, ∃ r', r' ∈ c ∧ r'.id = r.id ∧ ownedOf r' = ownedOf r := by
  intro ps
  induction ps with
  | nil =>
    intro cat c h r hr
    simp only [addPairs] at h
    cases h
    exact ⟨r, hr, rfl, rfl⟩
  | cons p ps ih =>
    obtain ⟨pl, t⟩ := p
    intro cat c h r hr
    simp only [addPairs] at h
    rcases hkind : t.kind with _ | k
    · rw [add_track_kind_none hkind] at h
      cases h
    · by_cases hk : k = "track"
      · subst hk
        rcases hid : t.id with _ | X
        · rw [add_track_id_none hkind hid] at h
          cases h
        · cases hc : containsTrack cat X
          · rw [add_track_create hkind hid hc] at h
            exact ih _ _ h r (List.mem_append_left _ hr)
          · rw [add_track_update hkind hid hc] at h
            have hmem : (if r.id == X then appendLabel pl r else r) ∈
                updateTrack cat X (appendLabel pl) :=
              List.mem_map_of_mem _ hr
            obtain ⟨r', hr', hid', hown'⟩ := ih _ _ h _ hmem
            refine ⟨r', hr', ?_, ?_⟩
            · rw [hid']
              split
              · exact appendLabel_id pl r
              · rfl
            · rw [hown']
              split
              · exact appendLabel_owned pl r
              · rfl
      · rw [add_track_skip hkind hk] at h
        exact ih _ _ h r hr

/-- A pass keeps the working catalog's ids duplicate-free: records are
appended only for ids not yet present. -/
theorem addPairs_nodup (old : OwnedLookup) (ps : List (Option String × RemoteTrack))
    (cat c : Catalog) (h : addPairs ps cat old = .ok c)
    (hnd : (catalogIds cat).Nodup) : (catalogIds c).Nodup := by
  refine addPairs_ind old (fun cat => (catalogIds cat).Nodup) ?_ ?_ ps cat c h hnd
  · intro cat X pl hP
    rw [catalogIds_updateTrack]
    exact hP
  · intro cat t X _ _ hc hP
    rw [catalogIds_append, mkNewRecord_id]
    rw [List.nodup_append]
    exact ⟨hP, List.nodup_singleton _, by
      intro a ha hb
      rw [List.mem_singleton] at hb
      subst hb
      exact not_mem_of_containsTrack_false hc ha⟩

/-- Every created record is owned-consistent with the pass's lookup. -/
theorem mkNewRecord_ownCons (old : OwnedLookup) (t : RemoteTrack) (X : String) :
    ownCons old (mkNewRecord t X old) := by
  unfold ownCons
  rw [mkNewRecord_owned, mkNewRecord_id]
  show ownOf old X t.purchase_url
      = ownOf old X (mkNewRecord t X old).purchase_url
  unfold mkNewRecord ownOf
  cases h : lookupOwn old X <;> simp [h]

/-- Owned-field consistency is a pass invariant. -/
theorem addPairs_ownCons (old : OwnedLookup) (ps : List (Option String × RemoteTrack))
    (cat c : Catalog) (h : addPairs ps cat old = .ok c)
    (h0 : ∀ r ∈ cat, ownCons old r) : ∀ r ∈ c, ownCons old r := by
  refine addPairs_ind old (fun cat => ∀ r ∈ cat, ownCons old r) ?_ ?_ ps cat c h h0
  · intro cat X pl hP r hr
    simp only [updateTrack, List.mem_map] at hr
    obtain ⟨r0, hr0, hmap⟩ := hr
    subst hmap
    split
    · unfold ownCons
      rw [appendLabel_owned, appendLabel_id, appendLabel_url]
      exact hP r0 hr0
    · exact hP r0 hr0
  · intro cat t X hkind hid hc hP r hr
    rcases List.mem_append.mp hr with hr | hr
    · exact hP r hr
    · rw [List.mem_singleton] at hr
      subst hr
      exact mkNewRecord_ownCons old t X

/-! ### Characterizing the owned-field lookup built from a catalog -/

theorem lookupOwn_buildAux (X : String) : ∀ (c : List TrackRecord) (acc : OwnedLookup),
    lookupOwn (buildAux c acc) X =
      match lastKept c X with
      | some o => some o
      | none => lookupOwn acc X := by
  intro c
  induction c with
  | nil => intro acc; rfl
  | cons row rest ih =>
    intro acc
    by_cases hk : keepRow row
    · simp only [buildAux, if_pos hk, lastKept, ih]
      cases hLK : lastKept rest X with
      | some o => rfl
      | none =>
        rw [lookupOwn_cons]
        cases hid : (row.id == X) <;> simp [hid, hk]
    · simp only [buildAux, if_neg hk, lastKept, ih]
      cases hLK : lastKept rest X with
      | some o => rfl
      | none => simp [hk]

theorem lastKept_of_not_mem {c : List TrackRecord} {X : String}
    (h : X ∉ catalogIds c) : lastKept c X = none := by
  induction c with
  | nil => rfl
  | cons row rest ih =>
    simp only [catalogIds, List.map_cons, List.mem_cons] at h
    push_neg at h
    obtain ⟨h1, h2⟩ := h
    simp only [lastKept]
    rw [ih (by simpa [catalogIds] using h2)]
    have : (row.id == X) = false := by
      simp [beq_eq_false_iff_ne]
      exact fun hh => h1 hh.symm
    simp [this]

theorem lastKept_nodup {c : List TrackRecord} {r : TrackRecord}
    (hnd : (catalogIds c).Nodup) (hr : r ∈ c) :
    lastKept c r.id = if keepRow r then some (ownedOf r) else none := by
  induction c with
  | nil => cases hr
  | cons a rest ih =>
    simp only [catalogIds, List.map_cons, List.nodup_cons] at hnd
    obtain ⟨ha, hnd'⟩ := hnd
    rcases List.mem_cons.mp hr with hr | hr
    · subst hr
      simp only [lastKept]
      rw [lastKept_of_not_mem (by simpa [catalogIds] using ha)]
      have : (r.id == r.id) = true := by simp
      rw [this]
      cases hk : keepRow r <;> simp
    · have hne : a.id ≠ r.id := by
        intro hh
        exact ha (hh ▸ List.mem_map_of_mem (fun x => x.id) hr)
      simp only [lastKept]
      rw [ih (by simpa [catalogIds] using hnd') hr]
      have hne' : (a.id == r.id) = false := by
        simpa [beq_eq_false_iff_ne] using hne
      cases hk : keepRow r
      · simp [hne']
      · simp

theorem lookupOwn_buildOldTracks {c : List TrackRecord} {r : TrackRecord}
    (hnd : (catalogIds c).Nodup) (hr : r ∈ c) :
    lookupOwn (buildOldTracks c) r.id = if keepRow r then some (ownedOf r) else none := by
  unfold buildOldTracks
  rw [lookupOwn_buildAux, lastKept_nodup hnd hr]
  cases hk : keepRow r <;> simp [lookupOwn]

/-- Entries of the owned-field lookup are never all-default: all-default
rows are skipped when the lookup is built. -/
theorem allDefault_false_of_lookup_buildAux (X : String) (o : Owned) :
    ∀ (c : List TrackRecord) (acc : OwnedLookup),
    (∀ e ∈ acc, allDefaultOwned e.2 = false) →
    lookupOwn (buildAux c acc) X = some o → allDefaultOwned o = false := by
  intro c
  induction c with
  | nil =>
    intro acc hacc h
    simp only [buildAux] at h
    unfold lookupOwn at h
    cases hf : List.find? (fun p => p.1 == X) acc with
    | none => rw [hf] at h; cases h
    | some p =>
      rw [hf] at h
      cases h
      exact hacc p (List.mem_of_find?_eq_some hf)
  | cons row rest ih =>
    intro acc hacc h
    simp only [buildAux] at h
    by_cases hk : keepRow row
    · rw [if_pos hk] at h
      refine ih _ ?_ h
      intro e he
      rcases List.mem_cons.mp he with he | he
      · subst he
        have := keepRow_eq row
        rw [hk] at this
        simpa using this.symm
      · exact hacc e he
    · rw [if_neg hk] at h
      exact ih _ hacc h

theorem allDefault_false_of_lookup {p : List TrackRecord} {X : String} {o : Owned}
    (h : lookupOwn (buildOldTracks p) X = some o) : allDefaultOwned o = false :=
  allDefault_false_of_lookup_buildAux X o p [] (by intro e he; cases he) h

/-- With duplicate-free ids, two catalog rows with the same id coincide. -/
theorem eq_of_mem_nodup_ids : ∀ {c : Catalog}, (catalogIds c).Nodup →
    ∀ {r r' : TrackRecord}, r ∈ c → r' ∈ c → r.id = r'.id → r = r' := by
  intro c
  induction c with
  | nil => intro _ r r' hr; cases hr
  | cons a rest ih =>
    intro hnd r r' hr hr' hid
    simp only [catalogIds, List.map_cons, List.nodup_cons] at hnd
    obtain ⟨ha, hnd'⟩ := hnd
    rcases List.mem_cons.mp hr with h1 | h1 <;>
      rcases List.mem_cons.mp hr' with h2 | h2
    · rw [h1, h2]
    · subst h1
      exfalso
      apply ha
      rw [hid]
      exact List.mem_map_of_mem _ h2
    · subst h2
      exfalso
      apply ha
      rw [← hid]
      exact List.mem_map_of_mem _ h1
    · exact ih (by simpa [catalogIds] using hnd') h1 h2 hid

/-! ### The record created at an id's first track-kind occurrence -/

theorem addPairs_firstOcc (old : OwnedLookup) :
    ∀ ps cat c, addPairs ps cat old = .ok c →
    ∀ X t, X ∉ catalogIds cat → firstTrackWithId ps X = some t →
    ∃ r, r ∈ c ∧ r.id = X ∧ ownedOf r = ownOf old X t.purchase_url := by
  intro ps
  induction ps with
  | nil =>
    intro cat c h X t hX hf
    simp [firstTrackWithId] at hf
  | cons p ps ih =>
    obtain ⟨pl, t'⟩ := p
    intro cat c h X t hX hf
    simp only [addPairs] at h
    rcases hkind : t'.kind with _ | k
    · rw [add_track_kind_none hkind] at h
      cases h
    · by_cases hk : k = "track"
      · subst hk
        rcases hid : t'.id with _ | Y
        · rw [add_track_id_none hkind hid] at h
          cases h
        · cases hc : containsTrack cat Y
          · rw [add_track_create hkind hid hc] at h
            by_cases hXY : X = Y
            · subst hXY
              have hhit : (t'.kind == some "track" && t'.id == some X) = true := by
                rw [hkind, hid]
                simp
              rw [first_cons_hit hhit] at hf
              cases hf
              have hmem : mkNewRecord t' X old ∈ cat ++ [mkNewRecord t' X old] := by
                simp
              obtain ⟨r', hr', hid', hown'⟩ := addPairs_pres old ps _ c h _ hmem
              exact ⟨r', hr', by rw [hid', mkNewRecord_id],
                by rw [hown', mkNewRecord_owned]⟩
            · have hskip : (t'.kind == some "track" && t'.id == some X) = false := by
                rw [hid]
                have : ((some Y : Option String) == some X) = false := by
                  rw [beq_eq_false_iff_ne]
                  intro hh
                  exact hXY (Option.some.inj hh).symm
                simp [this]
              rw [first_cons_skip hskip] at hf
              apply ih _ c h X t _ hf
              rw [catalogIds_append, mkNewRecord_id]
              simp only [List.mem_append, List.mem_singleton]
              push_neg
              exact ⟨hX, hXY⟩
          · rw [add_track_update hkind hid hc] at h
            have hXY : X ≠ Y := fun hh => hX (hh ▸ (containsTrack_iff cat Y).mp hc)
            have hskip : (t'.kind == some "track" && t'.id == some X) = false := by
              rw [hid]
              have : ((some Y : Option String) == some X) = false := by
                rw [beq_eq_false_iff_ne]
                intro hh
                exact hXY (Option.some.inj hh).symm
              simp [this]
            rw [first_cons_skip hskip] at hf
            apply ih _ c h X t _ hf
            rw [catalogIds_updateTrack]
            exact hX
      · rw [add_track_skip hkind hk] at h
        have hskip : (t'.kind == some "track" && t'.id == some X) = false := by
          rw [hkind]
          have : ((some k : Option String) == some "track") = false := by
            rw [beq_eq_false_iff_ne]
            intro hh
            exact hk (Option.some.inj hh)
          simp [this]
        rw [first_cons_skip hskip] at hf
        exact ih _ c h X t hX hf

/-! ### The pass result depends on the lookup only at first occurrences -/

theorem addPairs_sim (L₁ L₂ : OwnedLookup) :
    ∀ ps cat,
    (∀ X t, X ∉ catalogIds cat → firstTrackWithId ps X = some t →
      ownOf L₁ X t.purchase_url = ownOf L₂ X t.purchase_url) →
    addPairs ps cat L₁ = addPairs ps cat L₂ := by
  intro ps
  induction ps with
  | nil => intro cat _; rfl
  | cons p ps ih =>
    obtain ⟨pl, t⟩ := p
    intro cat H
    simp only [addPairs]
    rcases hkind : t.kind with _ | k
    · rw [add_track_kind_none hkind, add_track_kind_none hkind]
    · by_cases hk : k = "track"
      · subst hk
        rcases hid : t.id with _ | X
        · rw [add_track_id_none hkind hid, add_track_id_none hkind hid]
        · cases hc : containsTrack cat X
          · have hhit : (t.kind == some "track" && t.id == some X) = true := by
              rw [hkind, hid]
              simp
            have hE := H X t (not_mem_of_containsTrack_false hc) (first_cons_hit hhit)
            rw [add_track_create hkind hid hc, add_track_create hkind hid hc,
              mkNewRecord_congr hE]
            apply ih
            intro Y t' hY hf
            have hYX : Y ≠ X := by
              intro hh
              subst hh
              apply hY
              rw [catalogIds_append, mkNewRecord_id]
              simp
            apply H Y t'
            · intro hm
              apply hY
              rw [catalogIds_append]
              exact List.mem_append_left _ hm
            · have hskip : (t.kind == some "track" && t.id == some Y) = false := by
                rw [hid]
                have : ((some X : Option String) == some Y) = false := by
                  rw [beq_eq_false_iff_ne]
                  intro hh
                  exact hYX (Option.some.inj hh).symm
                simp [this]
              rw [first_cons_skip hskip]
              exact hf
          · rw [add_track_update hkind hid hc, add_track_update hkind hid hc]
            apply ih
            intro Y t' hY hf
            rw [catalogIds_updateTrack] at hY
            have hYX : Y ≠ X := by
              intro hh
              subst hh
              exact hY ((containsTrack_iff _ _).mp hc)
            apply H Y t' hY
            have hskip : (t.kind == some "track" && t.id == some Y) = false := by
              rw [hid]
              have : ((some X : Option String) == some Y) = false := by
                rw [beq_eq_false_iff_ne]
                intro hh
                exact hYX (Option.some.inj hh).symm
              simp [this]
            rw [first_cons_skip hskip]
            exact hf
      · rw [add_track_skip hkind hk, add_track_skip hkind hk]
        apply ih
        intro Y t' hY hf
        apply H Y t' hY
        have hskip : (t.kind == some "track" && t.id == some Y) = false := by
          rw [hkind]
          have : ((some k : Option String) == some "track") = false := by
            rw [beq_eq_false_iff_ne]
            intro hh
            exact hk (Option.some.inj hh)
          simp [this]
        rw [first_cons_skip hskip]
        exact hf

/-! ### Batch structure is irrelevant: a pass is a fold over the stream -/

theorem addPairs_append (old : OwnedLookup) :
    ∀ xs ys cat, addPairs (xs ++ ys) cat old =
      match addPairs xs cat old with
      | .error e => .error e
      | .ok c => addPairs ys c old := by
  intro xs
  induction xs with
  | nil => intro ys cat; rfl
  | cons p xs ih =>
    obtain ⟨pl, t⟩ := p
    intro ys cat
    simp only [List.cons_append, addPairs]
    cases h : add_track t cat old pl with
    | error e => rfl
    | ok c' => exact ih ys c'

theorem runBatches_eq (old : OwnedLookup) :
    ∀ bs cat, runBatches bs cat old = addPairs (flattenBatches bs) cat old := by
  intro bs
  induction bs with
  | nil => intro cat; rfl
  | cons b bs ih =>
    intro cat
    simp only [runBatches, flattenBatches]
    rw [addPairs_append]
    cases h : addPairs (labelTracks b) cat old with
    | error e => rfl
    | ok c' => exact ih c'

theorem ownOf_eq_some {L : OwnedLookup} {X : String} {o : Owned}
    (h : lookupOwn L X = some o) (u : Option String) : ownOf L X u = o := by
  unfold ownOf
  rw [h]

theorem ownOf_eq_none {L : OwnedLookup} {X : String}
    (h : lookupOwn L X = none) (u : Option String) : ownOf L X u = ⟨none, false, u⟩ := by
  unfold ownOf
  rw [h]

/-! ### Reconciliation-level corollaries -/

theorem reconcile_ownCons (prior : Catalog) (bs : List Batch) (c : Catalog)
    (h : create_new_df prior bs = .ok c) :
    ∀ r ∈ c, ownCons (buildOldTracks prior) r := by
  unfold create_new_df at h
  rw [runBatches_eq] at h
  exact addPairs_ownCons _ _ _ _ h (by intro r hr; cases hr)

theorem reconcile_nodup (prior : Catalog) (bs : List Batch) (c : Catalog)
    (h : create_new_df prior bs = .ok c) : (catalogIds c).Nodup := by
  unfold create_new_df at h
  rw [runBatches_eq] at h
  exact addPairs_nodup _ _ _ _ h (by simp [catalogIds])

/-- Prior rows with at least one non-default owned field keep their whole
owned triple through a pass. -/
theorem reconcile_kept_owned (prior : Catalog) (bs : List Batch) (c : Catalog)
    (hnd : (catalogIds prior).Nodup) (h : create_new_df prior bs = .ok c)
    (r : TrackRecord) (hr : r ∈ prior) (hk : keepRow r = true)
    (r' : TrackRecord) (hr' : r' ∈ c) (hid : r'.id = r.id) :
    ownedOf r' = ownedOf r := by
  have hoc := reconcile_ownCons prior bs c h r' hr'
  unfold ownCons at hoc
  have hlk : lookupOwn (buildOldTracks prior) r.id = some (ownedOf r) := by
    rw [lookupOwn_buildOldTracks hnd hr, if_pos hk]
  rw [hid] at hoc
  rw [hoc, ownOf_eq_some hlk]

/-- Prior rows whose owned fields are all default contribute nothing: the
result row for that id takes its purchase url from the first remote
occurrence. -/
theorem reconcile_default_url (prior : Catalog) (bs : List Batch) (c : Catalog)
    (hnd : (catalogIds prior).Nodup) (h : create_new_df prior bs = .ok c)
    (r : TrackRecord) (hr : r ∈ prior) (hk : keepRow r = false)
    (r' : TrackRecord) (hr' : r' ∈ c) (hid : r'.id = r.id)
    (t : RemoteTrack) (hf : firstTrackWithId (flattenBatches bs) r.id = some t) :
    r'.purchase_url = t.purchase_url := by
  have hndc : (catalogIds c).Nodup := reconcile_nodup prior bs c h
  unfold create_new_df at h
  rw [runBatches_eq] at h
  have hlk : lookupOwn (buildOldTracks prior) r.id = none := by
    rw [lookupOwn_buildOldTracks hnd hr, hk]
    rfl
  obtain ⟨r'', hr'', hid'', hown''⟩ :=
    addPairs_firstOcc (buildOldTracks prior) (flattenBatches bs) [] c h r.id t
      (by simp [catalogIds]) hf
  have heq : r' = r'' := eq_of_mem_nodup_ids hndc hr' hr'' (by rw [hid, hid''])
  subst heq
  rw [ownOf_eq_none hlk] at hown''
  exact congrArg Owned.purchase_url hown''

/-! ### Claim theorems -/

/-- C1: the spec's invariant `processed == (price is not null) AND
(purchase_url non-empty after trimming)` must hold after every edit-merge,
including one whose purchase-url argument is whitespace-only.  The code
violates it: `_apply_track_edits` tests only `download_url is not None`,
so editing track "1" with price 1 and url `"   "` stores
`processed = true` although `is_track_processed` — the invariant's own
derivation — yields `false` on the stored fields. -/
theorem C1_edit_processed_violates_invariant :
    (apply_track_edits [samplePriorDefault] "1" (some sampleEditWhitespace)).map
        (fun r => (r.processed, is_track_processed r.price r.purchase_url))
      = [(some true, false)] := by rfl

/-- C2 counterexample: a prior record whose owned fields are all at their
defaults is dropped from the owned-field lookup, so when the remote batch
reintroduces its id with a purchase url, the result record carries the
remote url `some "u"`, not the prior record's `none` — the claim's
"carries exactly those prior owned-field values" fails for it. -/
theorem C2_counterexample :
    create_new_df [samplePriorDefault] [.liked [sampleRemote]]
        = .ok [sampleFreshResult] ∧
    sampleFreshResult.purchase_url = some "u" ∧
    samplePriorDefault.purchase_url = none :=
  ⟨by rfl, by rfl, by rfl⟩

/-- C2 amended: for every identifier present in the prior catalog with at
least one non-default owned field and reintroduced by any remote batch,
the result record carries exactly the prior owned-field values. -/
theorem C2_owned_preserved (prior : Catalog) (bs : List Batch) (c : Catalog)
    (hnd : (catalogIds prior).Nodup) (h : create_new_df prior bs = .ok c)
    (r : TrackRecord) (hr : r ∈ prior) (hk : keepRow r = true)
    (r' : TrackRecord) (hr' : r' ∈ c) (hid : r'.id = r.id) :
    r'.purchased = r.purchased ∧ r'.price = r.price ∧
    r'.purchase_url = r.purchase_url := by
  have hown := reconcile_kept_owned prior bs c hnd h r hr hk r' hr' hid
  exact ⟨congrArg Owned.purchased hown, congrArg Owned.price hown,
    congrArg Owned.purchase_url hown⟩

theorem C2_owned_preserved_witness :
    sampleOwnedResult.purchased = samplePriorOwned.purchased ∧
    sampleOwnedResult.price = samplePriorOwned.price ∧
    sampleOwnedResult.purchase_url = samplePriorOwned.purchase_url :=
  C2_owned_preserved [samplePriorOwned] [.liked [sampleRemote]] [sampleOwnedResult]
    (by decide) (by rfl) samplePriorOwned (List.mem_singleton.mpr rfl) (by rfl)
    sampleOwnedResult (List.mem_singleton.mpr rfl) (by rfl)

/-- C3: the claim says a record first observed in a named playlist is
seeded with that playlist's name.  The code seeds the literal `"liked"`
whatever the context: reconciling an empty prior catalog against a single
batch for playlist "Deep House" yields playlist label `"liked"`, and the
name "Deep House" appears nowhere. -/
theorem C3_seed_always_liked :
    resultPlaylists (create_new_df [] [.playlist "Deep House" [sampleRemote]])
      = .ok ["liked"] := by rfl

/-- C4 counterexample: the prior record for id "1" carries membership
"OldList"; the remote batch reintroduces id "1" only via the liked
collection, and the result's playlist labels no longer contain "OldList"
— previously recorded membership is pruned by a single pass. -/
theorem C4_counterexample :
    create_new_df [samplePriorOwned] [.liked [sampleRemote]]
        = .ok [sampleOwnedResult] ∧
    strContains samplePriorOwned.playlists "OldList" = true ∧
    strContains sampleOwnedResult.playlists "OldList" = false :=
  ⟨by rfl, by rfl, by rfl⟩

/-- C4 amended: a pass rebuilds every record's playlist labels from the
current batches alone — the result is invariant under arbitrary rewriting
of the prior catalog's `playlists` column, so prior membership survives
only if re-observed. -/
theorem C4_prior_playlists_ignored (prior : Catalog) (bs : List Batch)
    (f : TrackRecord → String) :
    create_new_df (prior.map (fun r => { r with playlists := f r })) bs
      = create_new_df prior bs := by
  unfold create_new_df
  suffices hsuff : ∀ (p : Catalog) (acc : OwnedLookup),
      buildAux (p.map (fun r => { r with playlists := f r })) acc = buildAux p acc by
    unfold buildOldTracks
    rw [hsuff]
  intro p
  induction p with
  | nil => intro acc; rfl
  | cons row rest ih =>
    intro acc
    simp only [List.map_cons, buildAux]
    have hkeep : keepRow { row with playlists := f row } = keepRow row := rfl
    rw [hkeep]
    by_cases hk : keepRow row
    · rw [if_pos hk, if_pos hk]
      exact ih _
    · rw [if_neg hk, if_neg hk]
      exact ih _

/-- C5: the claim requires append-unless-exact-match.  The code tests
membership with Python's substring `in`: after "liked" and "Deep House",
the label "House" is a substring of the accumulated string
"liked, Deep House", so its append is suppressed and the pass ends
without the "House" label. -/
theorem C5_substring_suppresses_append :
    resultPlaylists (create_new_df []
        [.liked [sampleRemote], .playlist "Deep House" [sampleRemote],
         .playlist "House" [sampleRemote]])
      = .ok ["liked, Deep House"] ∧
    strContains "liked, Deep House" "House" = true :=
  ⟨by rfl, by rfl⟩

/-- C6 counterexample: applying an edit to record "1" changes record "2"
as well — its null `processed` value is coerced to `some false` by the
`fill_null(False)` in the non-target branch, so a field of a record
distinct from the target does change. -/
theorem C6_counterexample :
    sampleRowNullProcessed.id ≠ "1" ∧
    sampleRowNullProcessed.processed = none ∧
    (apply_track_edits [samplePriorOwned, sampleRowNullProcessed] "1"
        (some sampleEdit)).map (fun r => r.processed)
      = [some true, some false] :=
  ⟨by decide, by rfl, by rfl⟩

/-- C6 amended: an edit-merge replaces exactly the three owned fields of
the target and sets its processed flag to `price non-null AND purchase_url
non-null`; every remote-sourced field of every record is untouched, and
every non-target record keeps its owned fields, with the single exception
that a null `processed` on a non-target record is coerced to false. -/
theorem C6_edit_frame (df : Catalog) (track_id : String) (e : EditResult)
    (j : Nat) (old : TrackRecord) (h : df[j]? = some old) :
    (apply_track_edits df track_id (some e)).length = df.length ∧
    ∃ new : TrackRecord,
      (apply_track_edits df track_id (some e))[j]? = some new ∧
      new.id = old.id ∧ new.title = old.title ∧ new.artist = old.artist ∧
      new.genre = old.genre ∧ new.playlists = old.playlists ∧
      new.soundcloud_url = old.soundcloud_url ∧
      (old.id = track_id →
        new.purchased = e.purchased ∧ new.price = e.price ∧
        new.purchase_url = e.purchase_url ∧
        new.processed = some (e.price.isSome && e.purchase_url.isSome)) ∧
      (old.id ≠ track_id →
        new.purchased = old.purchased ∧ new.price = old.price ∧
        new.purchase_url = old.purchase_url ∧
        new.processed = some (old.processed.getD false)) := by
  have hmap : (apply_track_edits df track_id (some e))[j]?
      = some (editRow track_id e old) := by
    simp only [apply_track_edits]
    rw [List.getElem?_map, h]
    rfl
  refine ⟨by simp [apply_track_edits], _, hmap, ?_, ?_, ?_, ?_, ?_, ?_, ?_, ?_⟩ <;>
    by_cases hid : old.id = track_id <;> simp [editRow, hid]

theorem C6_edit_frame_witness :
    ([samplePriorOwned, sampleRowNullProcessed] : Catalog)[1]?
        = some sampleRowNullProcessed ∧
    ((apply_track_edits [samplePriorOwned, sampleRowNullProcessed] "1"
        (some sampleEdit)).length
        = ([samplePriorOwned, sampleRowNullProcessed] : Catalog).length ∧
      ∃ new : TrackRecord,
        (apply_track_edits [samplePriorOwned, sampleRowNullProcessed] "1"
            (some sampleEdit))[1]? = some new ∧
        new.id = sampleRowNullProcessed.id ∧
        new.title = sampleRowNullProcessed.title ∧
        new.artist = sampleRowNullProcessed.artist ∧
        new.genre = sampleRowNullProcessed.genre ∧
        new.playlists = sampleRowNullProcessed.playlists ∧
        new.soundcloud_url = sampleRowNullProcessed.soundcloud_url ∧
        (sampleRowNullProcessed.id = "1" →
          new.purchased = sampleEdit.purchased ∧ new.price = sampleEdit.price ∧
          new.purchase_url = sampleEdit.purchase_url ∧
          new.processed
            = some (sampleEdit.price.isSome && sampleEdit.purchase_url.isSome)) ∧
        (sampleRowNullProcessed.id ≠ "1" →
          new.purchased = sampleRowNullProcessed.purchased ∧
          new.price = sampleRowNullProcessed.price ∧
          new.purchase_url = sampleRowNullProcessed.purchase_url ∧
          new.processed = some (sampleRowNullProcessed.processed.getD false))) :=
  ⟨by rfl, C6_edit_frame [samplePriorOwned, sampleRowNullProcessed] "1" sampleEdit 1
    sampleRowNullProcessed (by rfl)⟩

/-- C7 counterexample: an edit targeting an identifier absent from the
catalog does not fail with NotFound — `_open_editor_for_track` returns
silently, no error of any kind is surfaced, and the catalog is unchanged.
Only the "catalog unchanged" half of the claim holds. -/
theorem C7_counterexample :
    open_editor_for_track [samplePriorOwned] "missing" = .ignored ∧
    open_editor_for_track [samplePriorOwned] "missing" ≠ .notFound ∧
    edit_track_flow [samplePriorOwned] "missing" (some sampleEdit)
      = [samplePriorOwned] :=
  ⟨by rfl, by decide, by rfl⟩

/-- C7 amended: an edit targeting an identifier absent from the catalog
is silently ignored — no editor opens, no NotFound error is surfaced, and
the catalog is unchanged whatever the modal would have returned. -/
theorem C7_absent_edit_silently_ignored (df : Catalog) (track_id : String)
    (h : get_track_row df track_id = none) :
    open_editor_for_track df track_id = .ignored ∧
    open_editor_for_track df track_id ≠ .notFound ∧
    ∀ mr, edit_track_flow df track_id mr = df := by
  refine ⟨?_, ?_, ?_⟩
  · unfold open_editor_for_track
    rw [h]
  · unfold open_editor_for_track
    rw [h]
    decide
  · intro mr
    unfold edit_track_flow
    rw [h]

theorem C7_absent_edit_silently_ignored_witness :
    open_editor_for_track [sampleFreshResult] "absent" = .ignored ∧
    open_editor_for_track [sampleFreshResult] "absent" ≠ .notFound ∧
    ∀ mr, edit_track_flow [sampleFreshResult] "absent" mr = [sampleFreshResult] :=
  C7_absent_edit_silently_ignored [sampleFreshResult] "absent" (by rfl)

/-- C8 counterexample: a track-kind remote record missing its identifier
is not skipped — `track["id"]` raises, the whole pass aborts with the
error, and no catalog is produced even though a well-formed record
followed in the same batch. -/
theorem C8_counterexample :
    create_new_df [] [.liked [sampleNoId, sampleRemote]] = .error .missingId ∧
    ∀ c : Catalog, create_new_df [] [.liked [sampleNoId, sampleRemote]] ≠ .ok c := by
  constructor
  · rfl
  · intro c hc
    have h1 : create_new_df [] [.liked [sampleNoId, sampleRemote]]
        = .error .missingId := rfl
    rw [h1] at hc
    cases hc

/-- C8 amended: a remote record whose kind is not "track" is skipped and
the pass continues unchanged, but a track-kind record missing its
identifier raises a KeyError that aborts the pass. -/
theorem C8_kind_skip_and_missing_id_fatal (t : RemoteTrack) (cat : Catalog)
    (old : OwnedLookup) (pl : Option String) :
    (∀ k, t.kind = some k → k ≠ "track" → add_track t cat old pl = .ok cat) ∧
    (t.kind = some "track" → t.id = none →
      add_track t cat old pl = .error .missingId) := by
  constructor
  · intro k hk hne
    exact add_track_skip hk hne
  · intro hk hi
    exact add_track_id_none hk hi

theorem C8_kind_skip_and_missing_id_fatal_witness :
    add_track samplePlaylistKind [] [] none = .ok [] ∧
    add_track sampleNoId [] [] none = .error .missingId :=
  ⟨(C8_kind_skip_and_missing_id_fatal samplePlaylistKind [] [] none).1 "playlist"
      (by rfl) (by decide),
   (C8_kind_skip_and_missing_id_fatal sampleNoId [] [] none).2 (by rfl) (by rfl)⟩

/-- C9: reconciliation is idempotent — feeding the catalog a pass
produced back into a pass over the same batch sequence reproduces that
catalog exactly (same records, same fields, same playlist strings). -/
theorem C9_reconcile_idempotent (prior : Catalog) (bs : List Batch) (c : Catalog)
    (h : create_new_df prior bs = .ok c) : create_new_df c bs = .ok c := by
  have hnd : (catalogIds c).Nodup := reconcile_nodup prior bs c h
  unfold create_new_df at h ⊢
  rw [runBatches_eq] at h ⊢
  have hsim : ∀ X t, X ∉ catalogIds ([] : Catalog) →
      firstTrackWithId (flattenBatches bs) X = some t →
      ownOf (buildOldTracks c) X t.purchase_url
        = ownOf (buildOldTracks prior) X t.purchase_url := by
    intro X t _ hf
    obtain ⟨r, hrc, hrid, hro⟩ :=
      addPairs_firstOcc (buildOldTracks prior) (flattenBatches bs) [] c h X t
        (by simp [catalogIds]) hf
    have hlk2 : lookupOwn (buildOldTracks c) X =
        if keepRow r then some (ownedOf r) else none := by
      have hx := lookupOwn_buildOldTracks hnd hrc
      rwa [hrid] at hx
    cases h1 : lookupOwn (buildOldTracks prior) X with
    | some o =>
      have hro' : ownedOf r = o := by rw [hro, ownOf_eq_some h1]
      have hdef : allDefaultOwned o = false := allDefault_false_of_lookup h1
      have hkeep : keepRow r = true := by
        rw [keepRow_eq, hro', hdef]
        rfl
      have hlkc : lookupOwn (buildOldTracks c) X = some (ownedOf r) := by
        rw [hlk2, if_pos hkeep]
      rw [ownOf_eq_some hlkc, ownOf_eq_some h1, hro']
    | none =>
      have hro' : ownedOf r = ⟨none, false, t.purchase_url⟩ := by
        rw [hro, ownOf_eq_none h1]
      cases hu : has_non_default_purchase_url t.purchase_url with
      | false =>
        have hkr : keepRow r = false := by
          rw [keepRow_eq, hro']
          simp [allDefaultOwned, hu]
        have hlkc : lookupOwn (buildOldTracks c) X = none := by
          rw [hlk2, hkr]
          rfl
        rw [ownOf_eq_none hlkc, ownOf_eq_none h1]
      | true =>
        have hkr : keepRow r = true := by
          rw [keepRow_eq, hro']
          simp [allDefaultOwned, hu]
        have hlkc : lookupOwn (buildOldTracks c) X = some (ownedOf r) := by
          rw [hlk2, if_pos hkr]
        rw [ownOf_eq_some hlkc, hro', ownOf_eq_none h1]
  rw [addPairs_sim (buildOldTracks c) (buildOldTracks prior) (flattenBatches bs) [] hsim]
  exact h

theorem C9_reconcile_idempotent_witness :
    create_new_df [sampleFreshResult] [.liked [sampleRemote]]
      = .ok [sampleFreshResult] :=
  C9_reconcile_idempotent [] [.liked [sampleRemote]] [sampleFreshResult] (by rfl)

/-- C10: during reconciliation, a prior record with at least one
non-default owned field keeps its stored purchase url verbatim, while a
prior record whose owned fields are all default adopts the purchase-url
field of the id's first remote occurrence. -/
theorem C10_purchase_url_policy (prior : Catalog) (bs : List Batch) (c : Catalog)
    (hnd : (catalogIds prior).Nodup) (h : create_new_df prior bs = .ok c)
    (r : TrackRecord) (hr : r ∈ prior) (r' : TrackRecord) (hr' : r' ∈ c)
    (hid : r'.id = r.id) :
    (keepRow r = true → r'.purchase_url = r.purchase_url) ∧
    (keepRow r = false → ∀ t, firstTrackWithId (flattenBatches bs) r.id = some t →
      r'.purchase_url = t.purchase_url) := by
  constructor
  · intro hk
    exact congrArg Owned.purchase_url
      (reconcile_kept_owned prior bs c hnd h r hr hk r' hr' hid)
  · intro hk t hf
    exact reconcile_default_url prior bs c hnd h r hr hk r' hr' hid t hf

theorem C10_purchase_url_policy_witness :
    (keepRow samplePriorOwned = true →
      sampleOwnedResult.purchase_url = samplePriorOwned.purchase_url) ∧
    (keepRow samplePriorOwned = false →
      ∀ t, firstTrackWithId (flattenBatches [.liked [sampleRemote]])
          samplePriorOwned.id = some t →
        sampleOwnedResult.purchase_url = t.purchase_url) :=
  C10_purchase_url_policy [samplePriorOwned] [.liked [sampleRemote]]
    [sampleOwnedResult] (by decide) (by rfl) samplePriorOwned
    (List.mem_singleton.mpr rfl) sampleOwnedResult (List.mem_singleton.mpr rfl)
    (by rfl)
